import Mathlib

/-!
Verification of the email-manager importance classifier and message
normalizer, shallowly embedded from `src/services/scoring.rs` and
`src/services/gmail.rs`.

Machine integers (the `u8` scores) are modelled as `Nat`; the values stay
in `{1, 2, 3}` so no overflow arises.  Rust `String` is modelled as Lean
`String`; operations that slice at byte positions of ASCII delimiters are
modelled on the character list, which delimits the same substrings.  Code
that can panic (a byte-range slice whose start exceeds its end) is
modelled in `Option`, with `none` standing for the panic.  Timestamps are
modelled as `Int`; the external RFC-2822 parser and the normalization-time
clock are parameters of `parse_message`.
-/

namespace EmailManager

/-- ASCII model of Rust lower-casing as used on header text:
maps `A`..`Z` to `a`..`z`, leaves everything else unchanged. -/
def lowerChar (c : Char) : Char :=
  if 65 ≤ c.toNat && c.toNat ≤ 90 then Char.ofNat (c.toNat + 32) else c

/-- Model of Rust `str::to_lowercase`. -/
def lowerStr (s : String) : String :=
  String.mk (s.toList.map lowerChar)

/-- Whether `pat` occurs at the front of the second list
(one position of Rust substring search). -/
def startsList : List Char → List Char → Bool
  | [], _ => true
  | _ :: _, [] => false
  | a :: as, b :: bs => a == b && startsList as bs

/-- Whether `pat` occurs contiguously somewhere in the list
(model of Rust `str::contains` with a string pattern). -/
def subList (pat : List Char) : List Char → Bool
  | [] => startsList pat []
  | c :: t => startsList pat (c :: t) || subList pat t

/-- Model of Rust `str::contains(&str)`. -/
def strContains (s pat : String) : Bool :=
  subList pat.toList s.toList

/-- Position of the first occurrence of character `c`, if any
(model of Rust `str::find(char)`, at character granularity). -/
def idxOfChar (c : Char) : List Char → Option Nat
  | [] => none
  | a :: t => if a == c then some 0 else (idxOfChar c t).map (· + 1)

/-- Model of Rust `str::find(char)` on a `String`. -/
def strFind (c : Char) (s : String) : Option Nat :=
  idxOfChar c s.toList

/-- Characters strictly after the first `'@'`, if there is one
(the Rust iterator `split('@')` past its first segment). -/
def afterFirstAt : List Char → Option (List Char)
  | [] => none
  | c :: t => if c == '@' then some t else afterFirstAt t

/-- Characters up to (excluding) the first `'@'`
(one segment of Rust `split('@')`). -/
def upToAt : List Char → List Char
  | [] => []
  | c :: t => if c == '@' then [] else c :: upToAt t

/-- Model of Rust `sender_email.split('@').nth(1)`: the segment between
the first `'@'` and the following `'@'` or end of string; `none` when the
string has no `'@'`. -/
def splitAtNth1 (s : String) : Option String :=
  (afterFirstAt s.toList).map (fun t => String.mk (upToAt t))

/-- Reading of the spec sentence for the trusted-domain rule: the whole
substring of the sender address after the first `@` (kept separate from
the source translation `splitAtNth1` to compare the two). -/
def specDomainAfterFirstAt (s : String) : Option String :=
  (afterFirstAt s.toList).map String.mk

/-! ## Importance classifier (`src/services/scoring.rs`) -/

/-- Fixed list `urgent_keywords` from `EmailScorer::new`. -/
def urgent_keywords : List String :=
  ["urgent", "important", "asap", "action required", "critical"]

/-- Fixed list `spam_indicators` from `EmailScorer::new`. -/
def spam_indicators : List String :=
  ["noreply", "newsletter", "marketing", "promo", "unsubscribe"]

/-- The mutable classifier state: the `important_domains` set.
Rust `HashSet<String>` is modelled as a list with membership-guarded
insertion, matching set semantics. -/
structure EmailScorer where
  important_domains : List String
  deriving DecidableEq

/-- Constructor `EmailScorer::new()`: empty trusted-domain set. -/
def EmailScorer.new : EmailScorer := ⟨[]⟩

/-- Operation `EmailScorer::add_important_domain`, a `HashSet::insert`. -/
def EmailScorer.add_important_domain (sc : EmailScorer) (domain : String) :
    EmailScorer :=
  if sc.important_domains.contains domain then sc
  else { sc with important_domains := domain :: sc.important_domains }

/-- Rule 1 condition of `calculate_score`:
the label list contains `SPAM` or `PROMOTIONS`. -/
def spamLabelHit (labels : List String) : Bool :=
  labels.contains "SPAM" || labels.contains "PROMOTIONS"

/-- Rule 2 condition of `calculate_score`: some spam indicator occurs in
the lower-cased sender address. -/
def spamSenderHit (sender_email : String) : Bool :=
  spam_indicators.any (fun ind => strContains (lowerStr sender_email) ind)

/-- Rule 3 condition of `calculate_score`: `sender_email.split('@').nth(1)`
is a registered important domain.  The `if let Some(domain)` guard in the
source makes a missing `'@'` skip the check rather than fail. -/
def trustedDomainHit (sc : EmailScorer) (sender_email : String) : Bool :=
  match splitAtNth1 sender_email with
  | some domain => sc.important_domains.contains domain
  | none => false

/-- Rule 4 condition of `calculate_score`: some urgent keyword occurs in
the lower-cased subject. -/
def urgentHit (subject : String) : Bool :=
  urgent_keywords.any (fun kw => strContains (lowerStr subject) kw)

/-- Function `EmailScorer::calculate_score`: sequential early-return
rules, scores `1` (Low), `2` (Normal), `3` (High). -/
def EmailScorer.calculate_score (sc : EmailScorer) (sender_email subject : String)
    (labels : List String) : Nat :=
  if spamLabelHit labels then 1
  else if spamSenderHit sender_email then 1
  else if trustedDomainHit sc sender_email then 3
  else if urgentHit subject then 3
  else if labels.contains "IMPORTANT" then 3
  else 2

/-! ## Message normalizer (`src/services/gmail.rs`, `parse_message`) -/

/-- ASCII model of the whitespace class trimmed by Rust `str::trim`. -/
def isWsChar (c : Char) : Bool :=
  c == ' ' || c == '\t' || c == '\n' || c == '\r'

/-- Characters with leading and trailing whitespace removed. -/
def trimChars (l : List Char) : List Char :=
  ((l.dropWhile isWsChar).reverse.dropWhile isWsChar).reverse

/-- Model of Rust `str::trim`. -/
def trimString (s : String) : String :=
  String.mk (trimChars s.toList)

/-- One raw header pair; the provider message type has both the name and
the value optional. -/
structure Header where
  name : Option String
  value : Option String
  deriving DecidableEq

/-- Parsing of a `From` header value in `parse_message`, returning
`(sender, sender_email)`.  The source slices
`from_value[email_start + 1..email_end]` where `email_start` is the
first `'<'` and `email_end` the first `'>'`; when `email_end` is smaller
than `email_start + 1` that Rust slice panics, modelled here by `none`. -/
def parseFrom (from_value : String) : Option (String × String) :=
  match strFind '<' from_value with
  | some email_start =>
    match strFind '>' from_value with
    | some email_end =>
      if email_start + 1 ≤ email_end then
        some
          (if trimString (String.mk (from_value.toList.take email_start)) = ""
           then String.mk ((from_value.toList.take email_end).drop (email_start + 1))
           else trimString (String.mk (from_value.toList.take email_start)),
           String.mk ((from_value.toList.take email_end).drop (email_start + 1)))
      else none
    | none => some (from_value, from_value)
  | none => some (from_value, from_value)

/-- Reading of the spec sentence for the display name: the substring
before the first `'<'`, trimmed of whitespace. -/
def specDisplay (v : String) : String :=
  trimString (String.mk (v.toList.takeWhile (fun c => !(c == '<'))))

/-- Reading of the spec sentence for the address: the substring between
the brackets — after the first `'<'`, up to the next `'>'`. -/
def specAddr (v : String) : String :=
  String.mk (((v.toList.dropWhile (fun c => !(c == '<'))).drop 1).takeWhile
    (fun c => !(c == '>')))

/-- The four header-derived fields accumulated by the extraction loop of
`parse_message`. -/
structure HeaderState where
  subject : String
  sender : String
  sender_email : String
  date_str : String
  deriving DecidableEq

/-- One iteration of the header loop in `parse_message`: the `match` on
`header.name.as_deref()` with arms for `Subject`, `From`, `Date` and a
catch-all; missing values default to the empty string. -/
def applyHeader (st : HeaderState) (h : Header) : Option HeaderState :=
  match h.name with
  | some "Subject" => some { st with subject := h.value.getD "" }
  | some "From" =>
    (parseFrom (h.value.getD "")).map
      (fun p => { st with sender := p.1, sender_email := p.2 })
  | some "Date" => some { st with date_str := h.value.getD "" }
  | _ => some st

/-- The header loop of `parse_message`: all headers processed in order,
aborted (`none`) if an iteration panics. -/
def processHeaders (st : HeaderState) : List Header → Option HeaderState
  | [] => some st
  | h :: t =>
    match applyHeader st h with
    | some st2 => processHeaders st2 t
    | none => none

/-- The `payload` field of a provider message: an optional header list. -/
structure MessagePart where
  headers : Option (List Header)
  deriving DecidableEq

/-- A provider message as consumed by `parse_message`: optional id,
snippet, label list and payload. -/
structure Message where
  id : Option String
  snippet : Option String
  label_ids : Option (List String)
  payload : Option MessagePart
  deriving DecidableEq

/-- The summary record built by `parse_message` (`EmailSummary` in
`models.rs`), with the timestamp as `Int`. -/
structure EmailSummary where
  id : String
  subject : String
  sender : String
  sender_email : String
  date : Int
  snippet : String
  is_read : Bool
  labels : List String
  importance_score : Nat
  deriving DecidableEq

/-- The pure logic of `GmailService::parse_message`: defaults for missing
fields, the header-extraction loop, the RFC-2822 date parse with
fall-back to the current time (`now` and the external parser are
parameters), the unread check and the score.  The result is `none`
exactly when the header loop panics. -/
def parse_message (sc : EmailScorer) (now : Int)
    (parseRfc2822 : String → Option Int) (message : Message) :
    Option EmailSummary :=
  let message_id := message.id.getD ""
  let snippet := message.snippet.getD ""
  let label_ids := message.label_ids.getD []
  let stOpt : Option HeaderState :=
    match message.payload with
    | some payload =>
      match payload.headers with
      | some headers => processHeaders ⟨"", "", "", ""⟩ headers
      | none => some ⟨"", "", "", ""⟩
    | none => some ⟨"", "", "", ""⟩
  match stOpt with
  | none => none
  | some st =>
    some
      { id := message_id
        subject := st.subject
        sender := st.sender
        sender_email := st.sender_email
        date := (parseRfc2822 st.date_str).getD now
        snippet := snippet
        is_read := !(label_ids.contains "UNREAD")
        labels := label_ids
        importance_score := sc.calculate_score st.sender_email st.subject label_ids }

/-! ## Test vectors from the spec -/

/-- Spec vector: a promotional label scores Low. -/
theorem vector_promotions_low :
    EmailScorer.new.calculate_score "newsletter@company.com" "50% off sale!"
      ["PROMOTIONS"] = 1 := by decide

/-- Spec vector: a noreply sender scores Low. -/
theorem vector_noreply_low :
    EmailScorer.new.calculate_score "noreply@service.com" "Your order confirmation"
      ["INBOX"] = 1 := by decide

/-- Spec vector: an urgent subject scores High. -/
theorem vector_urgent_high :
    EmailScorer.new.calculate_score "boss@work.com" "URGENT: Need this by EOD"
      ["INBOX"] = 3 := by decide

/-- Spec vector: a registered trusted domain scores High. -/
theorem vector_trusted_high :
    (EmailScorer.new.add_important_domain "work.com").calculate_score
      "colleague@work.com" "Meeting notes" ["INBOX"] = 3 := by decide

/-- Spec vector: a plain email scores Normal. -/
theorem vector_default_normal :
    EmailScorer.new.calculate_score "friend@gmail.com" "Hey, how are you?"
      ["INBOX"] = 2 := by decide

/-! ## Scorer lemmas -/

/-- Inserting a domain preserves membership of any already-present domain. -/
theorem contains_add_important_domain (sc : EmailScorer) (d x : String)
    (h : sc.important_domains.contains x = true) :
    (sc.add_important_domain d).important_domains.contains x = true := by
  unfold EmailScorer.add_important_domain
  split
  · exact h
  · simp only [List.contains_cons, h, Bool.or_true]

/-- Unfolding of the trusted-domain rule when the sender has a domain
segment. -/
theorem trustedDomainHit_eq_some (sc : EmailScorer) (s dom : String)
    (h : splitAtNth1 s = some dom) :
    trustedDomainHit sc s = sc.important_domains.contains dom := by
  unfold trustedDomainHit
  rw [h]

/-- Unfolding of the trusted-domain rule when the sender has no `@`. -/
theorem trustedDomainHit_eq_none (sc : EmailScorer) (s : String)
    (h : splitAtNth1 s = none) :
    trustedDomainHit sc s = false := by
  unfold trustedDomainHit
  rw [h]

/-- The trusted-domain rule can only switch from off to on when a domain
is registered, never from on to off. -/
theorem trustedDomainHit_add (sc : EmailScorer) (d sender : String)
    (h : trustedDomainHit sc sender = true) :
    trustedDomainHit (sc.add_important_domain d) sender = true := by
  cases hs : splitAtNth1 sender with
  | none =>
    rw [trustedDomainHit_eq_none sc sender hs] at h
    exact absurd h (by decide)
  | some dom =>
    rw [trustedDomainHit_eq_some sc sender dom hs] at h
    rw [trustedDomainHit_eq_some (sc.add_important_domain d) sender dom hs]
    exact contains_add_important_domain sc d dom h

/-- Registering a domain already in the set leaves the scorer unchanged. -/
theorem add_important_domain_of_mem (sc : EmailScorer) (d : String)
    (h : sc.important_domains.contains d = true) :
    sc.add_important_domain d = sc := by
  unfold EmailScorer.add_important_domain
  rw [h]
  simp

/-- After registration the domain is in the set. -/
theorem contains_after_add (sc : EmailScorer) (d : String) :
    (sc.add_important_domain d).important_domains.contains d = true := by
  unfold EmailScorer.add_important_domain
  split
  · assumption
  · simp [List.contains_cons]

/-! ## Claims about the classifier -/

/-- C1: whenever the label list contains `SPAM` or `PROMOTIONS`,
`calculate_score` returns `1` (Low), for every scorer state (hence
regardless of registered trusted domains), every sender and every
subject. -/
theorem spam_label_forces_low (sc : EmailScorer) (sender subject : String)
    (labels : List String)
    (h : labels.contains "SPAM" = true ∨ labels.contains "PROMOTIONS" = true) :
    sc.calculate_score sender subject labels = 1 := by
  rcases h with h | h <;>
    · unfold EmailScorer.calculate_score spamLabelHit
      rw [h]
      simp

/-- Witness for C1: the subject has an urgent keyword, the labels contain
`IMPORTANT` too, the domain is registered — the spam label still wins. -/
theorem spam_label_forces_low_witness :
    (EmailScorer.new.add_important_domain "work.com").calculate_score
      "boss@work.com" "URGENT request" ["SPAM", "IMPORTANT"] = 1 :=
  spam_label_forces_low (EmailScorer.new.add_important_domain "work.com")
    "boss@work.com" "URGENT request" ["SPAM", "IMPORTANT"] (Or.inl (by decide))

/-- C2: when the lower-cased sender contains one of the five spam
indicator substrings and the labels contain neither `SPAM` nor
`PROMOTIONS`, `calculate_score` returns `1` for every subject and every
scorer state — in particular even when the sender's domain is registered
as trusted. -/
theorem spam_sender_forces_low (sc : EmailScorer) (sender subject : String)
    (labels : List String)
    (h : spamSenderHit sender = true)
    (h1 : labels.contains "SPAM" = false)
    (h2 : labels.contains "PROMOTIONS" = false) :
    sc.calculate_score sender subject labels = 1 := by
  unfold EmailScorer.calculate_score spamLabelHit
  rw [h, h1, h2]
  simp

/-- Witness for C2: the sender `noreply@work.com` scores Low although
`work.com` is a registered trusted domain. -/
theorem spam_sender_forces_low_witness :
    (EmailScorer.new.add_important_domain "work.com").calculate_score
      "noreply@work.com" "hello" ["INBOX"] = 1 :=
  spam_sender_forces_low (EmailScorer.new.add_important_domain "work.com")
    "noreply@work.com" "hello" ["INBOX"] (by decide) (by decide) (by decide)

/-- C3, counterexample: for `a@b@c` the substring after the first `@` is
`b@c`; with `b@c` registered, no spam label and no spam indicator, the
claim predicts High, but the code checks only the segment `b` between
the first two `@` and returns Normal (2). -/
theorem trusted_domain_claim_counterexample :
    specDomainAfterFirstAt "a@b@c" = some "b@c" ∧
    (EmailScorer.mk ["b@c"]).important_domains.contains "b@c" = true ∧
    spamLabelHit [] = false ∧
    spamSenderHit "a@b@c" = false ∧
    ¬ (EmailScorer.mk ["b@c"]).calculate_score "a@b@c" "hi" [] = 3 := by
  refine ⟨by decide, by decide, by decide, by decide, ?_⟩
  decide

/-- C3, amended: the domain checked is `split('@').nth(1)` — the segment
between the first `@` and the next `@` or end of string, equal to the
substring after the first `@` whenever the sender has exactly one `@`.
When no earlier rule fired and that segment is registered,
`calculate_score` returns `3` (High).  A sender without `@` makes
`splitAtNth1` return `none`, so the check is skipped, not an error. -/
theorem trusted_domain_forces_high (sc : EmailScorer) (sender subject : String)
    (labels : List String) (d : String)
    (h1 : spamLabelHit labels = false)
    (h2 : spamSenderHit sender = false)
    (hd : splitAtNth1 sender = some d)
    (hmem : sc.important_domains.contains d = true) :
    sc.calculate_score sender subject labels = 3 := by
  unfold EmailScorer.calculate_score
  rw [h1, h2, trustedDomainHit_eq_some sc sender d hd, hmem]
  simp

/-- Witness for the amended C3: the spec's own example
`colleague@work.com` with `work.com` registered scores High. -/
theorem trusted_domain_forces_high_witness :
    (EmailScorer.mk ["work.com"]).calculate_score
      "colleague@work.com" "Meeting notes" ["INBOX"] = 3 :=
  trusted_domain_forces_high (EmailScorer.mk ["work.com"])
    "colleague@work.com" "Meeting notes" ["INBOX"] "work.com"
    (by decide) (by decide) (by decide) (by decide)

/-- C4: when no spam label, no spam indicator and no trusted-domain
match fired, an urgent keyword occurring as a substring of the
lower-cased subject makes `calculate_score` return `3` (High). -/
theorem urgent_keyword_forces_high (sc : EmailScorer) (sender subject : String)
    (labels : List String)
    (h1 : spamLabelHit labels = false)
    (h2 : spamSenderHit sender = false)
    (h3 : trustedDomainHit sc sender = false)
    (h4 : urgentHit subject = true) :
    sc.calculate_score sender subject labels = 3 := by
  unfold EmailScorer.calculate_score
  rw [h1, h2, h3, h4]
  simp

/-- Witness for C4: `asap` buried inside the word `fooasapbar` still
matches — substring, not whole-word, matching. -/
theorem urgent_keyword_forces_high_witness :
    EmailScorer.new.calculate_score "friend@gmail.com" "fooasapbar" ["INBOX"] = 3 :=
  urgent_keyword_forces_high EmailScorer.new "friend@gmail.com" "fooasapbar"
    ["INBOX"] (by decide) (by decide) (by decide) (by decide)

/-- C5: when none of the first four rules fired the result is `3` if the
labels contain `IMPORTANT` and `2` otherwise; and on every input
whatsoever the score is one of `1`, `2`, `3`. -/
theorem important_label_default_and_range :
    (∀ (sc : EmailScorer) (sender subject : String) (labels : List String),
      spamLabelHit labels = false →
      spamSenderHit sender = false →
      trustedDomainHit sc sender = false →
      urgentHit subject = false →
      sc.calculate_score sender subject labels =
        if labels.contains "IMPORTANT" then 3 else 2) ∧
    (∀ (sc : EmailScorer) (sender subject : String) (labels : List String),
      sc.calculate_score sender subject labels = 1 ∨
      sc.calculate_score sender subject labels = 2 ∨
      sc.calculate_score sender subject labels = 3) := by
  constructor
  · intro sc sender subject labels h1 h2 h3 h4
    unfold EmailScorer.calculate_score
    rw [h1, h2, h3, h4]
    simp
  · intro sc sender subject labels
    unfold EmailScorer.calculate_score
    split
    · exact Or.inl rfl
    split
    · exact Or.inl rfl
    split
    · exact Or.inr (Or.inr rfl)
    split
    · exact Or.inr (Or.inr rfl)
    split
    · exact Or.inr (Or.inr rfl)
    · exact Or.inr (Or.inl rfl)

/-- Witness for C5: an otherwise-plain email with `IMPORTANT` scores 3,
without it scores 2. -/
theorem important_label_default_and_range_witness :
    EmailScorer.new.calculate_score "friend@gmail.com" "Hey" ["IMPORTANT"] = 3 ∧
    EmailScorer.new.calculate_score "friend@gmail.com" "Hey" ["INBOX"] = 2 :=
  ⟨(important_label_default_and_range.1 EmailScorer.new "friend@gmail.com" "Hey"
      ["IMPORTANT"] (by decide) (by decide) (by decide) (by decide)).trans (by decide),
   (important_label_default_and_range.1 EmailScorer.new "friend@gmail.com" "Hey"
      ["INBOX"] (by decide) (by decide) (by decide) (by decide)).trans (by decide)⟩

/-- C9: `add_important_domain` is idempotent — registering the same
domain twice yields the same scorer state as registering it once, so all
subsequent `calculate_score` results coincide. -/
theorem add_important_domain_idempotent (sc : EmailScorer) (d : String) :
    (sc.add_important_domain d).add_important_domain d = sc.add_important_domain d ∧
    ∀ (sender subject : String) (labels : List String),
      ((sc.add_important_domain d).add_important_domain d).calculate_score
          sender subject labels =
        (sc.add_important_domain d).calculate_score sender subject labels := by
  have key := add_important_domain_of_mem (sc.add_important_domain d) d
    (contains_after_add sc d)
  exact ⟨key, fun sender subject labels => by rw [key]⟩

/-- C10: registering a trusted domain never lowers a score — for every
scorer state, domain, and input, the score after `add_important_domain`
is at least the score before. -/
theorem add_important_domain_monotone (sc : EmailScorer) (d : String)
    (sender subject : String) (labels : List String) :
    sc.calculate_score sender subject labels ≤
      (sc.add_important_domain d).calculate_score sender subject labels := by
  unfold EmailScorer.calculate_score
  cases h1 : spamLabelHit labels
  · cases h2 : spamSenderHit sender
    · cases h3 : trustedDomainHit sc sender
      · cases h3' : trustedDomainHit (sc.add_important_domain d) sender
        · cases h4 : urgentHit subject
          · cases h5 : labels.contains "IMPORTANT"
            · simp
            · simp
          · simp
        · cases h4 : urgentHit subject
          · cases h5 : labels.contains "IMPORTANT"
            · simp
            · simp
          · simp
      · rw [trustedDomainHit_add sc d sender h3]
    · simp
  · simp

/-! ## List lemmas relating first-occurrence indices to while-scans -/

/-- Taking while a character is not seen equals taking up to its first
index. -/
theorem takeWhile_eq_take_of_idx (c : Char) :
    ∀ (l : List Char) (i : Nat), idxOfChar c l = some i →
      l.takeWhile (fun a => !(a == c)) = l.take i := by
  intro l
  induction l with
  | nil => intro i h; simp [idxOfChar] at h
  | cons a t ih =>
    intro i h
    unfold idxOfChar at h
    by_cases ha : a == c
    · rw [if_pos ha] at h
      injection h with h0
      subst h0
      simp [List.takeWhile_cons, ha]
    · rw [if_neg ha] at h
      obtain ⟨i2, hi2, rfl⟩ := Option.map_eq_some'.mp h
      simp [List.takeWhile_cons, ha, ih i2 hi2]

/-- Dropping while a character is not seen equals dropping up to its
first index. -/
theorem dropWhile_eq_drop_of_idx (c : Char) :
    ∀ (l : List Char) (i : Nat), idxOfChar c l = some i →
      l.dropWhile (fun a => !(a == c)) = l.drop i := by
  intro l
  induction l with
  | nil => intro i h; simp [idxOfChar] at h
  | cons a t ih =>
    intro i h
    unfold idxOfChar at h
    by_cases ha : a == c
    · rw [if_pos ha] at h
      injection h with h0
      subst h0
      simp [List.dropWhile_cons, ha]
    · rw [if_neg ha] at h
      obtain ⟨i2, hi2, rfl⟩ := Option.map_eq_some'.mp h
      simp [List.dropWhile_cons, ha, ih i2 hi2]

/-- Dropping a prefix shorter than the first occurrence shifts the first
occurrence index. -/
theorem idxOfChar_drop (c : Char) :
    ∀ (k : Nat) (l : List Char) (j : Nat), k ≤ j → idxOfChar c l = some j →
      idxOfChar c (l.drop k) = some (j - k) := by
  intro k
  induction k with
  | zero => intro l j _ h; simpa using h
  | succ k ih =>
    intro l j hkj h
    cases l with
    | nil => simp [idxOfChar] at h
    | cons a t =>
      unfold idxOfChar at h
      by_cases ha : a == c
      · rw [if_pos ha] at h
        injection h with h0
        subst h0
        exact absurd hkj (by omega)
      · rw [if_neg ha] at h
        obtain ⟨j2, hj2, rfl⟩ := Option.map_eq_some'.mp h
        rw [List.drop_succ_cons]
        have harith : j2 + 1 - (k + 1) = j2 - k := by omega
        rw [harith]
        exact ih t j2 (by omega) hj2

/-! ## Equations of the From-header parser -/

/-- With no `'<'` in the value, `parseFrom` uses the whole value for
both fields. -/
theorem parseFrom_eq_no_open (v : String) (h : strFind '<' v = none) :
    parseFrom v = some (v, v) := by
  unfold parseFrom
  rw [h]

/-- With `'<'` but no `'>'` in the value, `parseFrom` also uses the
whole value for both fields. -/
theorem parseFrom_eq_no_close (v : String) (i : Nat)
    (hi : strFind '<' v = some i) (h : strFind '>' v = none) :
    parseFrom v = some (v, v) := by
  unfold parseFrom
  rw [hi, h]

/-- With both brackets found, `parseFrom` slices between them if the
order is right and panics (`none`) otherwise. -/
theorem parseFrom_eq_found (v : String) (i j : Nat)
    (hi : strFind '<' v = some i) (hj : strFind '>' v = some j) :
    parseFrom v =
      if i + 1 ≤ j then
        some
          (if trimString (String.mk (v.toList.take i)) = ""
           then String.mk ((v.toList.take j).drop (i + 1))
           else trimString (String.mk (v.toList.take i)),
           String.mk ((v.toList.take j).drop (i + 1)))
      else none := by
  unfold parseFrom
  rw [hi, hj]

/-- When the first `'>'` is after the first `'<'`, the sliced address of
`parseFrom` is the spec's substring between the brackets. -/
theorem specAddr_eq (v : String) (i j : Nat) (hi : strFind '<' v = some i)
    (hj : strFind '>' v = some j) (hij : i < j) :
    specAddr v = String.mk ((v.toList.take j).drop (i + 1)) := by
  unfold specAddr
  unfold strFind at hi hj
  rw [dropWhile_eq_drop_of_idx '<' v.toList i hi]
  rw [List.drop_drop]
  have h1 : idxOfChar '>' (v.toList.drop (i + 1)) = some (j - (i + 1)) :=
    idxOfChar_drop '>' (i + 1) v.toList j (by omega) hj
  rw [takeWhile_eq_take_of_idx '>' (v.toList.drop (i + 1)) (j - (i + 1)) h1]
  rw [List.take_drop]
  have harith : (i + 1) + (j - (i + 1)) = j := by omega
  rw [harith]

/-- The trimmed prefix of `parseFrom` is the spec's display name. -/
theorem specDisplay_eq (v : String) (i : Nat) (hi : strFind '<' v = some i) :
    specDisplay v = trimString (String.mk (v.toList.take i)) := by
  unfold specDisplay
  unfold strFind at hi
  rw [takeWhile_eq_take_of_idx '<' v.toList i hi]

/-! ## Equations of the header loop -/

/-- A `Subject` header overwrites the subject field. -/
theorem applyHeader_subject (st : HeaderState) (v : String) :
    applyHeader st ⟨some "Subject", some v⟩ =
      some { st with subject := v } := rfl

/-- A `Date` header overwrites the raw date field. -/
theorem applyHeader_date (st : HeaderState) (v : String) :
    applyHeader st ⟨some "Date", some v⟩ =
      some { st with date_str := v } := rfl

/-- A `From` header overwrites both sender fields through `parseFrom`. -/
theorem applyHeader_from (st : HeaderState) (v : String) :
    applyHeader st ⟨some "From", some v⟩ =
      (parseFrom v).map
        (fun p => { st with sender := p.1, sender_email := p.2 }) := rfl

/-- The header loop on the empty list. -/
theorem processHeaders_nil (st : HeaderState) : processHeaders st [] = some st := rfl

/-- The header loop on a cons, as a bind. -/
theorem processHeaders_cons (st : HeaderState) (hd : Header) (tl : List Header) :
    processHeaders st (hd :: tl) =
      (applyHeader st hd).bind (fun st2 => processHeaders st2 tl) := by
  cases h : applyHeader st hd with
  | none => simp [processHeaders, h]
  | some st2 => simp [processHeaders, h]

/-- The header loop distributes over append. -/
theorem processHeaders_append (st : HeaderState) (hs ts : List Header) :
    processHeaders st (hs ++ ts) =
      (processHeaders st hs).bind (fun st2 => processHeaders st2 ts) := by
  induction hs generalizing st with
  | nil => rfl
  | cons hd tl ih =>
    rw [List.cons_append, processHeaders_cons, processHeaders_cons]
    cases applyHeader st hd with
    | none => rfl
    | some st2 => exact ih st2

/-! ## Claims about the normalizer -/

/-- C7, counterexample: the From value `>a<b` contains both brackets,
but the first `'>'` is before the first `'<'`, so the code slices with a
start index past the end index: the Rust slice panics (`none` in the
model) and no summary fields are produced at all, contradicting the
claim for this value. -/
theorem from_header_claim_counterexample :
    strFind '<' ">a<b" = some 2 ∧
    strFind '>' ">a<b" = some 0 ∧
    parseFrom ">a<b" = none ∧
    applyHeader ⟨"", "", "", ""⟩ ⟨some "From", some ">a<b"⟩ = none := by
  refine ⟨by decide, by decide, by decide, by decide⟩

/-- C7, amended: for every From value in which the first `'<'` occurs
before the first `'>'`, the header assigns the substring between the
brackets as address and the whitespace-trimmed prefix before `'<'` as
display name, falling back to the address when that prefix is empty; a
value with no `'<'` is used whole for both fields.  (Values whose first
`'>'` precedes the first `'<'` instead panic.) -/
theorem from_header_sets_fields (st : HeaderState) (v : String) :
    (∀ i j : Nat, strFind '<' v = some i → strFind '>' v = some j → i < j →
      applyHeader st ⟨some "From", some v⟩ =
        some { st with
          sender := if specDisplay v = "" then specAddr v else specDisplay v,
          sender_email := specAddr v }) ∧
    (strFind '<' v = none →
      applyHeader st ⟨some "From", some v⟩ =
        some { st with sender := v, sender_email := v }) := by
  constructor
  · intro i j hi hj hij
    rw [applyHeader_from]
    rw [parseFrom_eq_found v i j hi hj]
    rw [if_pos (show i + 1 ≤ j by omega)]
    rw [specAddr_eq v i j hi hj hij, specDisplay_eq v i hi]
    rfl
  · intro h
    rw [applyHeader_from, parseFrom_eq_no_open v h]
    rfl

/-- Witness for the amended C7, on the spec's own examples:
`Jane Doe <jane@x.com>` yields display name `Jane Doe` and address
`jane@x.com`; bare `jane@x.com` yields both fields equal. -/
theorem from_header_sets_fields_witness :
    applyHeader ⟨"", "", "", ""⟩ ⟨some "From", some "Jane Doe <jane@x.com>"⟩ =
      some ⟨"", "Jane Doe", "jane@x.com", ""⟩ ∧
    applyHeader ⟨"", "", "", ""⟩ ⟨some "From", some "jane@x.com"⟩ =
      some ⟨"", "jane@x.com", "jane@x.com", ""⟩ :=
  ⟨((from_header_sets_fields ⟨"", "", "", ""⟩ "Jane Doe <jane@x.com>").1 9 20
      (by decide) (by decide) (by decide)).trans (by decide),
   ((from_header_sets_fields ⟨"", "", "", ""⟩ "jane@x.com").2
      (by decide)).trans (by decide)⟩

/-- C8, counterexample: a header list with two `From` entries where the
earlier one panics (first `'>'` before first `'<'`): the loop aborts, so
the last occurrence's well-formed value `x@y` does not determine the
sender fields — no state is produced at all. -/
theorem header_loop_claim_counterexample :
    processHeaders ⟨"", "", "", ""⟩
      [⟨some "From", some ">a<b"⟩, ⟨some "From", some "x@y"⟩] = none ∧
    parseFrom "x@y" = some ("x@y", "x@y") := by
  refine ⟨by decide, by decide⟩

/-- C8, amended: provided the earlier headers process without a panic,
appending a recognized header (`Subject`, `Date`, or a `From` whose
value parses) at the end overwrites the corresponding field with the
last occurrence's value, whatever same-named headers appeared before:
the loop iterates all headers in order and the last write wins. -/
theorem last_header_wins (st st2 : HeaderState) (hs : List Header)
    (h : processHeaders st hs = some st2) :
    (∀ v : String, processHeaders st (hs ++ [⟨some "Subject", some v⟩]) =
        some { st2 with subject := v }) ∧
    (∀ v : String, processHeaders st (hs ++ [⟨some "Date", some v⟩]) =
        some { st2 with date_str := v }) ∧
    (∀ (v : String) (p : String × String), parseFrom v = some p →
        processHeaders st (hs ++ [⟨some "From", some v⟩]) =
          some { st2 with sender := p.1, sender_email := p.2 }) := by
  refine ⟨fun v => ?_, fun v => ?_, fun v p hp => ?_⟩
  · rw [processHeaders_append, h]
    rfl
  · rw [processHeaders_append, h]
    rfl
  · rw [processHeaders_append, h]
    show processHeaders st2 [⟨some "From", some v⟩] = _
    rw [processHeaders_cons, applyHeader_from, hp]
    rfl

/-- Witness for the amended C8: two `Subject` headers — the second one,
appended after a `From`, overrides the first. -/
theorem last_header_wins_witness :
    processHeaders ⟨"", "", "", ""⟩
      ([⟨some "Subject", some "first"⟩,
        ⟨some "From", some "Jane Doe <jane@x.com>"⟩] ++
       [⟨some "Subject", some "second"⟩]) =
      some ⟨"second", "Jane Doe", "jane@x.com", ""⟩ :=
  (last_header_wins ⟨"", "", "", ""⟩ ⟨"first", "Jane Doe", "jane@x.com", ""⟩
      [⟨some "Subject", some "first"⟩, ⟨some "From", some "Jane Doe <jane@x.com>"⟩]
      (by decide)).1 "second"

/-- C6: the claim that `parse_message` never fails or panics is wrong —
a message whose `From` header value has its first `'>'` before its first
`'<'` makes the source slice `from_value[email_start + 1..email_end]`
with `email_start + 1 > email_end`, which panics; the model returns
`none` instead of an `EmailSummary` on that input. -/
theorem parse_message_panics_on_reversed_brackets :
    parse_message EmailScorer.new 0 (fun _ => none)
      ⟨some "m1", some "snip", some ["INBOX"],
        some ⟨some [⟨some "From", some ">a<b"⟩]⟩⟩ = none := by
  decide

end EmailManager
